import Mathlib

/-!
Verification of the todoist-recent-tagger repository.

The repository consists of three pieces of code:
* a cleanup-only "maintainer" script (its `main` removes stale recency labels),
* a combined sweep script (its `main` both adds and removes recency labels),
* a webhook service (`webhook/main.ts`) that reactively adds recency labels.

This file embeds those pieces as executable Lean definitions.  JavaScript
idioms are modelled explicitly: `new Date(s)` on an unparseable or empty
string yields an invalid date (NaN), every comparison against NaN is false,
and `NaN !== x` is true; `x || y` on strings falls back when `x` is
undefined or empty.  Machine time is modelled as mathematical integers
(milliseconds since the epoch), which is exact for the ranges involved.
-/

namespace TodoistRecent

/-- Label name constant `RECENTLY_CREATED_LABEL` (same value in all three scripts). -/
def RECENTLY_CREATED_LABEL : String := "recently created"

/-- Label name constant `RECENTLY_UPDATED_LABEL` (same value in all three scripts). -/
def RECENTLY_UPDATED_LABEL : String := "recently updated"

/-- Constant `RECENT_THRESHOLD_HOURS = 24`. -/
def RECENT_THRESHOLD_HOURS : Int := 24

/-- `recentThreshold = new Date(now.getTime() - RECENT_THRESHOLD_HOURS*60*60*1000)`,
in epoch milliseconds. -/
def recentThreshold (now : Int) : Int :=
  now - RECENT_THRESHOLD_HOURS * 60 * 60 * 1000

/-- A raw timestamp field of a task as fed to `new Date(...)`:
`missing` covers an absent or empty string (falsy under `||`),
`malformed` a non-empty string that does not parse,
`valid t` a string parsing to epoch-millisecond instant `t`. -/
inductive Timestamp where
  | missing
  | malformed (s : String)
  | valid (t : Int)
deriving DecidableEq

/-- JavaScript `a || b` on raw timestamp strings: only an absent or empty
string is falsy; a malformed non-empty string is truthy. -/
def Timestamp.jsOr : Timestamp → Timestamp → Timestamp
  | .missing, b => b
  | a, _ => a

/-- `new Date(s).getTime()`: `some t` for a parseable string, `none` for NaN
(invalid date, which `new Date('')` and malformed strings produce). -/
def Timestamp.parse : Timestamp → Option Int
  | .valid t => some t
  | _ => none

/-- A task record as used by the scripts: id, content, label-name list
(`task.labels || []`), and the raw `addedAt` / `updatedAt` fields. -/
structure Task where
  id : String
  content : String
  labels : List String
  addedAt : Timestamp
  updatedAt : Timestamp
deriving DecidableEq

/-- `new Date(task.addedAt || '').getTime()`. -/
def createdVal (t : Task) : Option Int := t.addedAt.parse

/-- `new Date(task.updatedAt || task.addedAt || '').getTime()`: the fallback
happens on the raw strings before parsing. -/
def updatedVal (t : Task) : Option Int := (t.updatedAt.jsOr t.addedAt).parse

/-- JavaScript `d >= threshold` on a possibly-invalid date: any comparison
involving NaN is false. -/
def jsGe : Option Int → Int → Bool
  | some v, x => decide (v ≥ x)
  | none, _ => false

/-- JavaScript `a.getTime() !== b.getTime()`: `NaN !== anything` is true. -/
def jsNeTime : Option Int → Option Int → Bool
  | some a, some b => decide (a ≠ b)
  | _, _ => true

/-- `isRecentlyCreated = createdDate >= recentThreshold` (identical formula in
both sweep scripts). -/
def isRecentlyCreated (t : Task) (now : Int) : Bool :=
  jsGe (createdVal t) (recentThreshold now)

/-- `isRecentlyUpdated = updatedDate >= recentThreshold &&
updatedDate.getTime() !== createdDate.getTime()` (identical formula in both
sweep scripts). -/
def isRecentlyUpdated (t : Task) (now : Int) : Bool :=
  jsGe (updatedVal t) (recentThreshold now) && jsNeTime (updatedVal t) (createdVal t)

/-- One add-or-remove step of the combined sweep on a label list
(the two symmetric `if`/`else if` blocks of its update loop):
if `present` and the name is absent, append it; if not `present` and the
name occurs, splice out the first occurrence (`indexOf` + `splice(i, 1)`,
i.e. `List.erase`); otherwise leave the list as is. -/
def applyLabelEdit (labels : List String) (name : String) (present : Bool) : List String :=
  if present && !labels.contains name then
    labels ++ [name]
  else if !present && labels.contains name then
    labels.erase name
  else
    labels

/-- The new label list the combined sweep builds for one task: the
"recently created" edit followed by the "recently updated" edit. -/
def sweepNewLabels (labels : List String) (shouldHaveCreatedLabel shouldHaveUpdatedLabel : Bool) :
    List String :=
  applyLabelEdit (applyLabelEdit labels RECENTLY_CREATED_LABEL shouldHaveCreatedLabel)
    RECENTLY_UPDATED_LABEL shouldHaveUpdatedLabel

/-- JavaScript's default `Array.prototype.sort()` comparison on strings:
lexicographic over the strings' code units (equal to code points for the
ASCII label names involved here). -/
def jsStrLe : List Char → List Char → Bool
  | [], _ => true
  | _ :: _, [] => false
  | a :: as, b :: bs =>
    if a.val < b.val then true
    else if b.val < a.val then false
    else jsStrLe as bs

/-- `xs.sort()` with the default string comparison.  The sweep's change test
compares `JSON.stringify` of the two sorted arrays; two string arrays have
equal sorted JSON exactly when their sorted lists are equal. -/
def sortL (l : List String) : List String :=
  List.insertionSort (fun a b => jsStrLe a.data b.data = true) l

/-- An `updateTask(id, { labels })` call recorded by a sweep. -/
structure TaskWrite where
  taskId : String
  labels : List String
deriving DecidableEq

/-- Per-task step of the combined sweep (its processing plus update loop):
compute the recency decision, compare with current label membership, and if
either differs build the new list and write it unless the sorted lists
already agree.  `Array.prototype.sort()` sorts in place and returns the
same array, so by the time `updateTask` runs the rebuilt list has been
sorted by the change test: `some w` means `updateTask` is called with the
sorted list `w.labels`. -/
def sweepProcessTask (t : Task) (now : Int) : Option TaskWrite :=
  let shouldC := isRecentlyCreated t now
  let shouldU := isRecentlyUpdated t now
  let hasC := t.labels.contains RECENTLY_CREATED_LABEL
  let hasU := t.labels.contains RECENTLY_UPDATED_LABEL
  if shouldC != hasC || shouldU != hasU then
    let newLabels := sweepNewLabels t.labels shouldC shouldU
    if sortL newLabels ≠ sortL t.labels then some ⟨t.id, sortL newLabels⟩ else none
  else
    none

/-- The task's label list in the store after the combined sweep processed it:
the written list when a write happened, the untouched list otherwise. -/
def sweepFinalLabels (t : Task) (now : Int) : List String :=
  match sweepProcessTask t now with
  | some w => w.labels
  | none => t.labels

/-- First pass of the cleanup-only maintainer: should this task's labels be
rebuilt?  `rcExists` / `ruExists` say whether the corresponding label record
was found in the store (`recentlyCreatedLabel && task.labels?.includes(...) || false`). -/
def cleanupShouldRemove (t : Task) (now : Int) (rcExists ruExists : Bool) : Bool :=
  let currentlyHasCreatedLabel := rcExists && t.labels.contains RECENTLY_CREATED_LABEL
  let currentlyHasUpdatedLabel := ruExists && t.labels.contains RECENTLY_UPDATED_LABEL
  (currentlyHasCreatedLabel && !isRecentlyCreated t now) ||
    (currentlyHasUpdatedLabel && !isRecentlyUpdated t now)

/-- Second pass of the cleanup-only maintainer for one task: rebuild the
label list by splicing out each stale recency label, returning the new list
and the `labelsChanged` flag. -/
def cleanupNewLabels (t : Task) (now : Int) (rcExists ruExists : Bool) : List String × Bool :=
  let step1 :=
    if rcExists && t.labels.contains RECENTLY_CREATED_LABEL && !isRecentlyCreated t now then
      (t.labels.erase RECENTLY_CREATED_LABEL, true)
    else
      (t.labels, false)
  if ruExists && step1.1.contains RECENTLY_UPDATED_LABEL && !isRecentlyUpdated t now then
    (step1.1.erase RECENTLY_UPDATED_LABEL, true)
  else
    step1

/-- The maintainer's `updateTask` call for one task, if `labelsChanged`. -/
def cleanupProcessTask (t : Task) (now : Int) (rcExists ruExists : Bool) : Option TaskWrite :=
  let r := cleanupNewLabels t now rcExists ruExists
  if r.2 then some ⟨t.id, r.1⟩ else none

/-- A label record held by the store (`Label` of the Todoist API). -/
structure LabelRec where
  id : Nat
  name : String
deriving DecidableEq

/-- Snapshot of the store as the cleanup-only maintainer reads it. -/
structure CleanupStore where
  labels : List LabelRec
  tasks : List Task
deriving DecidableEq

/-- `api.getTasks({ label: name })`: the tasks whose label list contains `name`. -/
def getTasksByLabel (s : CleanupStore) (name : String) : List Task :=
  s.tasks.filter (fun t => t.labels.contains name)

/-- The `tasksToCheck` map keyed by task id: JavaScript `Map.set` keeps the
first insertion position, and both queries read the same store snapshot, so
later insertions for the same id carry an identical task value. -/
def dedupeByIdAux : List Task → List String → List Task
  | [], _ => []
  | t :: ts, seen =>
    if seen.contains t.id then dedupeByIdAux ts seen
    else t :: dedupeByIdAux ts (t.id :: seen)

/-- Deduplicate a task list by id, keeping first occurrences in order. -/
def dedupeById (l : List Task) : List Task := dedupeByIdAux l []

/-- What a run of the cleanup-only maintainer did: labels created (this
script contains no `addLabel` call, so this is always empty) and task
writes performed. -/
structure CleanupResult where
  creates : List String
  writes : List TaskWrite
deriving DecidableEq

/-- The cleanup-only maintainer `main`: find the two label records; if
neither exists, log "Nothing to do" and return; otherwise fetch the tasks
bearing each existing label, deduplicate by id, keep those whose labels must
be rebuilt, and write each rebuilt list. -/
def cleanupMain (s : CleanupStore) (now : Int) : CleanupResult :=
  let rcLabel := s.labels.find? (fun l => l.name == RECENTLY_CREATED_LABEL)
  let ruLabel := s.labels.find? (fun l => l.name == RECENTLY_UPDATED_LABEL)
  if rcLabel.isNone && ruLabel.isNone then
    { creates := [], writes := [] }
  else
    let currentlyCreatedTasks :=
      if rcLabel.isSome then getTasksByLabel s RECENTLY_CREATED_LABEL else []
    let currentlyUpdatedTasks :=
      if ruLabel.isSome then getTasksByLabel s RECENTLY_UPDATED_LABEL else []
    let tasksToCheck := dedupeById (currentlyCreatedTasks ++ currentlyUpdatedTasks)
    let tasksToUpdate :=
      tasksToCheck.filter (fun t => cleanupShouldRemove t now rcLabel.isSome ruLabel.isSome)
    { creates := [],
      writes := tasksToUpdate.filterMap
        (fun t => cleanupProcessTask t now rcLabel.isSome ruLabel.isSome) }

/-- State of the label collection behind the webhook service's API client,
together with a counter of `getLabels` fetches performed. -/
structure ApiState where
  labels : List LabelRec
  nextId : Nat
  fetches : Nat
deriving DecidableEq

/-- `api.getLabels()`: returns the collection and counts one fetch. -/
def getLabels (s : ApiState) : List LabelRec × ApiState :=
  (s.labels, { s with fetches := s.fetches + 1 })

/-- `api.addLabel({ name })`: the store assigns a fresh id and appends. -/
def addLabel (name : String) (s : ApiState) : LabelRec × ApiState :=
  let l : LabelRec := { id := s.nextId, name := name }
  (l, { s with labels := s.labels ++ [l], nextId := s.nextId + 1 })

/-- `ensureLabelsExist` of the webhook service: fetch the collection, take
the first record matching each of the two names, and create whichever is
missing.  There is no memoization in the source; every call starts with a
fresh `getLabels`. -/
def ensureLabelsExist (s : ApiState) : (LabelRec × LabelRec) × ApiState :=
  let fetched := getLabels s
  let found1 := fetched.1.find? (fun l => l.name == RECENTLY_CREATED_LABEL)
  let found2 := fetched.1.find? (fun l => l.name == RECENTLY_UPDATED_LABEL)
  let created :=
    match found1 with
    | some l => (l, fetched.2)
    | none => addLabel RECENTLY_CREATED_LABEL fetched.2
  let updated :=
    match found2 with
    | some l => (l, created.2)
    | none => addLabel RECENTLY_UPDATED_LABEL created.2
  ((created.1, updated.1), updated.2)

/-- World state for one webhook-handling step: the label store, the label
list of the task named by the event, whether the API client was initialized
(`api` is set as soon as `TODOIST_TOKEN` is present, and the server refuses
to start without it), and an oracle saying whether the remote calls of this
add path throw.  A thrown remote call is caught inside the add function, so
on failure the task's labels are not rewritten. -/
structure World where
  api : ApiState
  taskLabels : List String
  apiInit : Bool
  storeFails : Bool
deriving DecidableEq

/-- `addRecentlyCreatedLabel`: the `if (!api) throw` sits outside the
`try`, so an uninitialized client propagates (`Except.error`); every error
inside the `try` (modelled by `storeFails`) is logged and swallowed.  On
success, append the resolved created-label name unless already present. -/
def addRecentlyCreatedLabel (w : World) : Except Unit World :=
  if !w.apiInit then .error ()
  else if w.storeFails then .ok w
  else
    let r := ensureLabelsExist w.api
    let createdLabel := r.1.1
    let currentLabels := w.taskLabels
    if !currentLabels.contains createdLabel.name then
      .ok { w with api := r.2, taskLabels := currentLabels ++ [createdLabel.name] }
    else
      .ok { w with api := r.2 }

/-- `addRecentlyUpdatedLabel`: same shape as `addRecentlyCreatedLabel`,
using the resolved updated label. -/
def addRecentlyUpdatedLabel (w : World) : Except Unit World :=
  if !w.apiInit then .error ()
  else if w.storeFails then .ok w
  else
    let r := ensureLabelsExist w.api
    let updatedLabel := r.1.2
    let currentLabels := w.taskLabels
    if !currentLabels.contains updatedLabel.name then
      .ok { w with api := r.2, taskLabels := currentLabels ++ [updatedLabel.name] }
    else
      .ok { w with api := r.2 }

/-- The parsed webhook payload fields the handler consumes:
`event_name`, `event_data.id`, and `event_data_extra?.update_intent`. -/
structure WebhookPayload where
  event_name : String
  taskId : String
  updateIntent : Option String
deriving DecidableEq

/-- The gate `!updateIntent || updateIntent === "item_updated"`:
JavaScript `!` is true on `undefined` and on the empty string. -/
def jsIntentQualifies : Option String → Bool
  | none => true
  | some s => s == "" || s == "item_updated"

/-- `handleWebhook`: dispatch on `event_name`; `item:added` adds the created
label, `item:updated` adds the updated label when the intent gate passes,
anything else is ignored. -/
def handleWebhook (p : WebhookPayload) (w : World) : Except Unit World :=
  if p.event_name == "item:added" then addRecentlyCreatedLabel w
  else if p.event_name == "item:updated" then
    (if jsIntentQualifies p.updateIntent then addRecentlyUpdatedLabel w else .ok w)
  else
    .ok w

/-- The task's label list after the reactive path ran (an uncaught throw
leaves the list untouched, since the only write is the final call). -/
def reactiveResultLabels (p : WebhookPayload) (w : World) : List String :=
  match handleWebhook p w with
  | .ok w2 => w2.taskLabels
  | .error _ => w.taskLabels

/-- An inbound HTTP request as the webhook `handler` sees it: path, method,
whether the `X-Todoist-Hmac-SHA256` header is present, whether signature
verification succeeds (the verifier is an external collaborator), whether
the body parses as JSON, and the parsed payload when it does. -/
structure HttpRequest where
  path : String
  method : String
  hasSignature : Bool
  signatureValid : Bool
  parses : Bool
  payload : WebhookPayload
deriving DecidableEq

/-- The webhook service's HTTP `handler`, returning the response status. -/
def handler (req : HttpRequest) (w : World) : Nat :=
  if req.path == "/health" then 200
  else if req.path == "/webhook" && req.method == "POST" then
    if !req.hasSignature then 401
    else if !req.signatureValid then 401
    else if !req.parses then 400
    else
      match handleWebhook req.payload w with
      | .ok _ => 200
      | .error _ => 500
  else
    404

/-- True for the two recency label names, false for all others. -/
def isRecencyName (n : String) : Bool :=
  n == RECENTLY_CREATED_LABEL || n == RECENTLY_UPDATED_LABEL

/-- Claim C2: for parseable timestamps, the recency predicate wants the
created label iff `now - creationInstant ≤ 24h` (inclusive boundary), wants
the updated label iff a modification instant is present, within the
threshold, and different from the creation instant; in particular an item
whose modification equals its creation is never "recently updated". -/
theorem claim2_recency_predicate (t : Task) (c : Int) (now : Int)
    (hc : t.addedAt = Timestamp.valid c)
    (hu : t.updatedAt = Timestamp.missing ∨ ∃ x, t.updatedAt = Timestamp.valid x) :
    (isRecentlyCreated t now = true ↔ now - c ≤ RECENT_THRESHOLD_HOURS * 60 * 60 * 1000) ∧
    (isRecentlyUpdated t now = true ↔
      ∃ x, t.updatedAt = Timestamp.valid x ∧
        now - x ≤ RECENT_THRESHOLD_HOURS * 60 * 60 * 1000 ∧ x ≠ c) ∧
    (t.updatedAt = Timestamp.valid c → isRecentlyUpdated t now = false) := by
  have hcv : createdVal t = some c := by simp [createdVal, hc, Timestamp.parse]
  refine ⟨?_, ?_, ?_⟩
  · simp [isRecentlyCreated, hcv, jsGe, recentThreshold]
    omega
  · rcases hu with hmiss | ⟨x, hx⟩
    · have huv : updatedVal t = some c := by
        simp [updatedVal, hmiss, hc, Timestamp.jsOr, Timestamp.parse]
      simp [isRecentlyUpdated, huv, hcv, jsGe, jsNeTime, hmiss]
    · have huv : updatedVal t = some x := by
        simp [updatedVal, hx, Timestamp.jsOr, Timestamp.parse]
      simp [isRecentlyUpdated, huv, hcv, jsGe, jsNeTime, hx, recentThreshold]
      intro h'
      omega
  · intro hx
    have huv : updatedVal t = some c := by
      simp [updatedVal, hx, Timestamp.jsOr, Timestamp.parse]
    simp [isRecentlyUpdated, huv, hcv, jsGe, jsNeTime]

/-- Witness for C2 at a concrete item created at the reference instant. -/
theorem claim2_witness :
    isRecentlyCreated ⟨"1", "t", [], Timestamp.valid 0, Timestamp.missing⟩ 0 = true := by
  have h := claim2_recency_predicate ⟨"1", "t", [], Timestamp.valid 0, Timestamp.missing⟩ 0 0
    rfl (Or.inl rfl)
  exact h.1.mpr (by decide)

/-- Counterexample to C5 as frozen: removing a label name from a list that
holds two occurrences of it is not idempotent — the first application
removes one occurrence, the second removes the other. -/
theorem claim5_counterexample :
    applyLabelEdit
        (applyLabelEdit [RECENTLY_CREATED_LABEL, RECENTLY_CREATED_LABEL]
          RECENTLY_CREATED_LABEL false)
        RECENTLY_CREATED_LABEL false ≠
      applyLabelEdit [RECENTLY_CREATED_LABEL, RECENTLY_CREATED_LABEL]
        RECENTLY_CREATED_LABEL false := by
  decide

/-- Claim C5 amended: the label edit is idempotent for every add, and for a
removal whenever the input list holds at most one occurrence of the name. -/
theorem claim5_idempotent (l : List String) (name : String) (present : Bool)
    (h : present = true ∨ l.count name ≤ 1) :
    applyLabelEdit (applyLabelEdit l name present) name present =
      applyLabelEdit l name present := by
  cases present with
  | true =>
    by_cases hm : name ∈ l
    · simp [applyLabelEdit, hm]
    · simp [applyLabelEdit, hm]
  | false =>
    rcases h with h | h
    · exact absurd h (by simp)
    · by_cases hm : name ∈ l
      · have hcount : l.count name = 1 :=
          le_antisymm h (List.count_pos_iff.mpr hm)
        have hgone : name ∉ l.erase name := by
          rw [← List.count_eq_zero, List.count_erase_self, hcount]
        simp [applyLabelEdit, hm, hgone]
      · simp [applyLabelEdit, hm]

/-- Witness for C5 amended: adding to a singleton list twice. -/
theorem claim5_witness :
    applyLabelEdit (applyLabelEdit ["work"] RECENTLY_CREATED_LABEL true)
        RECENTLY_CREATED_LABEL true =
      applyLabelEdit ["work"] RECENTLY_CREATED_LABEL true :=
  claim5_idempotent ["work"] RECENTLY_CREATED_LABEL true (Or.inl rfl)

/-- Erasing an element the filter would drop anyway commutes away. -/
theorem filter_erase_of_pred_false (l : List String) (a : String) (p : String → Bool)
    (h : p a = false) : (l.erase a).filter p = l.filter p := by
  induction l with
  | nil => rfl
  | cons x xs ih =>
    by_cases hx : x = a
    · subst hx
      simp [List.erase_cons, h]
    · simp [List.erase_cons, hx, List.filter_cons, ih]

/-- A label edit at name `n` never disturbs the sublist of entries a
predicate false at `n` selects. -/
theorem filter_applyLabelEdit (l : List String) (n : String) (pr : Bool) (p : String → Bool)
    (h : p n = false) : (applyLabelEdit l n pr).filter p = l.filter p := by
  unfold applyLabelEdit
  split
  · simp [List.filter_append, h]
  · split
    · exact filter_erase_of_pred_false l n p h
    · rfl

/-- A label edit at name `n` preserves the multiplicity of any other name. -/
theorem count_applyLabelEdit_ne (l : List String) (n m : String) (pr : Bool) (h : m ≠ n) :
    (applyLabelEdit l n pr).count m = l.count m := by
  unfold applyLabelEdit
  split
  · simp [List.count_append, h]
  · split
    · exact List.count_erase_of_ne h l
    · rfl

/-- A label edit at name `n` preserves membership of any other name. -/
theorem mem_applyLabelEdit_ne (l : List String) (n m : String) (pr : Bool) (h : m ≠ n) :
    m ∈ applyLabelEdit l n pr ↔ m ∈ l := by
  rw [← List.count_pos_iff, ← List.count_pos_iff, count_applyLabelEdit_ne l n m pr h]

/-- On a list holding at most one occurrence of `n`, the edit leaves `n`
present exactly when the desired-presence flag is set. -/
theorem mem_applyLabelEdit_self (l : List String) (n : String) (pr : Bool)
    (h : l.count n ≤ 1) : n ∈ applyLabelEdit l n pr ↔ pr = true := by
  cases pr with
  | true =>
    by_cases hm : n ∈ l
    · simp [applyLabelEdit, hm]
    · simp [applyLabelEdit, hm]
  | false =>
    by_cases hm : n ∈ l
    · have hcount : l.count n = 1 := le_antisymm h (List.count_pos_iff.mpr hm)
      have hgone : n ∉ l.erase n := by
        rw [← List.count_eq_zero, List.count_erase_self, hcount]
      simp [applyLabelEdit, hm, hgone]
    · simp [applyLabelEdit, hm]

/-- Equal sorted label lists are permutations of each other. -/
theorem perm_of_sortL_eq {a b : List String} (h : sortL a = sortL b) : a.Perm b := by
  have ha := List.perm_insertionSort (fun x y : String => jsStrLe x.data y.data = true) a
  have hb := List.perm_insertionSort (fun x y : String => jsStrLe x.data y.data = true) b
  unfold sortL at h
  rw [← h] at hb
  exact ha.symm.trans hb

/-- Sorting a label list is a permutation of it. -/
theorem perm_sortL (l : List String) : (sortL l).Perm l := by
  unfold sortL
  exact List.perm_insertionSort _ l

/-- Sorting a label list never changes membership. -/
theorem mem_sortL (l : List String) (a : String) : a ∈ sortL l ↔ a ∈ l :=
  (perm_sortL l).mem_iff

/-- Branch analysis of the combined sweep's per-task step: the final list is
either the freshly built list as sorted by the change test, or the
untouched list because no flag differed or because the rebuilt list was a
rearrangement of the old one. -/
theorem sweepFinalLabels_eq (t : Task) (now : Int) :
    sweepFinalLabels t now =
        sortL (sweepNewLabels t.labels (isRecentlyCreated t now) (isRecentlyUpdated t now)) ∨
      sweepFinalLabels t now = t.labels ∧
        ((isRecentlyCreated t now = t.labels.contains RECENTLY_CREATED_LABEL ∧
            isRecentlyUpdated t now = t.labels.contains RECENTLY_UPDATED_LABEL) ∨
          sortL (sweepNewLabels t.labels (isRecentlyCreated t now) (isRecentlyUpdated t now)) =
            sortL t.labels) := by
  unfold sweepFinalLabels sweepProcessTask
  simp only []
  by_cases hflag : (isRecentlyCreated t now != t.labels.contains RECENTLY_CREATED_LABEL ||
      isRecentlyUpdated t now != t.labels.contains RECENTLY_UPDATED_LABEL) = true
  · rw [if_pos hflag]
    by_cases hsort : sortL (sweepNewLabels t.labels (isRecentlyCreated t now)
        (isRecentlyUpdated t now)) ≠ sortL t.labels
    · rw [if_pos hsort]
      left
      rfl
    · rw [if_neg hsort]
      right
      exact ⟨rfl, Or.inr (not_ne_iff.mp hsort)⟩
  · rw [if_neg hflag]
    right
    refine ⟨rfl, Or.inl ?_⟩
    simpa [Bool.or_eq_true, bne_iff_ne, not_or] using hflag

/-- Counterexample to C1 as frozen: a task whose label list arrives with a
duplicated "recently created" entry and an old creation instant.  The sweep
decision wants the label gone, but the rewrite splices out only the first
occurrence, so after a successful write the label is still present. -/
theorem claim1_counterexample :
    isRecentlyCreated
        ⟨"1", "x", [RECENTLY_CREATED_LABEL, RECENTLY_CREATED_LABEL],
          Timestamp.valid 0, Timestamp.missing⟩ 100000000000 = false ∧
    RECENTLY_CREATED_LABEL ∈ sweepFinalLabels
        ⟨"1", "x", [RECENTLY_CREATED_LABEL, RECENTLY_CREATED_LABEL],
          Timestamp.valid 0, Timestamp.missing⟩ 100000000000 := by
  refine ⟨by decide, ?_⟩
  rcases sweepFinalLabels_eq
      ⟨"1", "x", [RECENTLY_CREATED_LABEL, RECENTLY_CREATED_LABEL],
        Timestamp.valid 0, Timestamp.missing⟩ 100000000000 with h | ⟨h, _⟩
  · rw [h]
    have hC : isRecentlyCreated
        ⟨"1", "x", [RECENTLY_CREATED_LABEL, RECENTLY_CREATED_LABEL],
          Timestamp.valid 0, Timestamp.missing⟩ 100000000000 = false := by decide
    have hU : isRecentlyUpdated
        ⟨"1", "x", [RECENTLY_CREATED_LABEL, RECENTLY_CREATED_LABEL],
          Timestamp.valid 0, Timestamp.missing⟩ 100000000000 = false := by decide
    rw [hC, hU]
    decide
  · rw [h]
    decide

/-- Claim C1 amended: for a task whose fetched label list holds at most one
occurrence of each recency name, after the combined sweep's per-task step
the stored label list contains each recency name exactly when the recency
decision wants it. -/
theorem claim1_sweep_invariant (t : Task) (now : Int)
    (h1 : t.labels.count RECENTLY_CREATED_LABEL ≤ 1)
    (h2 : t.labels.count RECENTLY_UPDATED_LABEL ≤ 1) :
    (RECENTLY_CREATED_LABEL ∈ sweepFinalLabels t now ↔ isRecentlyCreated t now = true) ∧
    (RECENTLY_UPDATED_LABEL ∈ sweepFinalLabels t now ↔ isRecentlyUpdated t now = true) := by
  have hne : RECENTLY_CREATED_LABEL ≠ RECENTLY_UPDATED_LABEL := by decide
  have hne2 : RECENTLY_UPDATED_LABEL ≠ RECENTLY_CREATED_LABEL := by decide
  have hmemC : RECENTLY_CREATED_LABEL ∈
      sweepNewLabels t.labels (isRecentlyCreated t now) (isRecentlyUpdated t now) ↔
      isRecentlyCreated t now = true := by
    unfold sweepNewLabels
    rw [mem_applyLabelEdit_ne _ _ _ _ hne, mem_applyLabelEdit_self _ _ _ h1]
  have hcount : (applyLabelEdit t.labels RECENTLY_CREATED_LABEL
      (isRecentlyCreated t now)).count RECENTLY_UPDATED_LABEL ≤ 1 := by
    rw [count_applyLabelEdit_ne _ _ _ _ hne2]
    exact h2
  have hmemU : RECENTLY_UPDATED_LABEL ∈
      sweepNewLabels t.labels (isRecentlyCreated t now) (isRecentlyUpdated t now) ↔
      isRecentlyUpdated t now = true := by
    unfold sweepNewLabels
    rw [mem_applyLabelEdit_self _ _ _ hcount]
  rcases sweepFinalLabels_eq t now with h | ⟨h, hside⟩
  · rw [h]
    exact ⟨(mem_sortL _ _).trans hmemC, (mem_sortL _ _).trans hmemU⟩
  · rw [h]
    rcases hside with ⟨ha, hb⟩ | hsort
    · have hcc : RECENTLY_CREATED_LABEL ∈ t.labels ↔
          t.labels.contains RECENTLY_CREATED_LABEL = true := by simp
      have hcu : RECENTLY_UPDATED_LABEL ∈ t.labels ↔
          t.labels.contains RECENTLY_UPDATED_LABEL = true := by simp
      rw [ha, hb]
      exact ⟨hcc, hcu⟩
    · have hperm := perm_of_sortL_eq hsort
      constructor
      · rw [hperm.symm.mem_iff]
        exact hmemC
      · rw [hperm.symm.mem_iff]
        exact hmemU

/-- Witness for C1 amended at a freshly created task labelled `["work"]`. -/
theorem claim1_witness :
    (RECENTLY_CREATED_LABEL ∈
        sweepFinalLabels ⟨"1", "x", ["work"], Timestamp.valid 0, Timestamp.missing⟩ 0 ↔
      isRecentlyCreated ⟨"1", "x", ["work"], Timestamp.valid 0, Timestamp.missing⟩ 0 = true) ∧
    (RECENTLY_UPDATED_LABEL ∈
        sweepFinalLabels ⟨"1", "x", ["work"], Timestamp.valid 0, Timestamp.missing⟩ 0 ↔
      isRecentlyUpdated ⟨"1", "x", ["work"], Timestamp.valid 0, Timestamp.missing⟩ 0 = true) :=
  claim1_sweep_invariant ⟨"1", "x", ["work"], Timestamp.valid 0, Timestamp.missing⟩ 0
    (by decide) (by decide)

/-- Counterexample to C4 as frozen: `Array.prototype.sort()` sorts
`newLabels` in place during the change test, so the combined sweep hands
`updateTask` the sorted list.  A stale task labelled
`["zeta", "alpha", "recently created"]` gets `["alpha", "zeta"]` written:
its non-recency entries come back in the opposite relative order. -/
theorem claim4_counterexample :
    sweepProcessTask ⟨"1", "x", ["zeta", "alpha", RECENTLY_CREATED_LABEL],
        Timestamp.valid 0, Timestamp.missing⟩ 100000000000 =
      some ⟨"1", ["alpha", "zeta"]⟩ ∧
    ["alpha", "zeta"].filter (fun n => !isRecencyName n) ≠
      ["zeta", "alpha", RECENTLY_CREATED_LABEL].filter (fun n => !isRecencyName n) := by
  decide

/-- Claim C4 amended: every label-list rewrite keeps the non-recency
entries themselves intact.  The combined sweep's written list carries
exactly the same non-recency name strings with the same multiplicities (a
permutation of the input's non-recency sublist), and the cleanup
maintainer's written list preserves them byte-for-byte in their original
relative order.  The combined sweep does not preserve relative order: the
change test's in-place sort means the list it writes is sorted. -/
theorem claim4_frame_names (labels : List String) (sc su : Bool) (t : Task) (now : Int)
    (rcE ruE : Bool) :
    ((sortL (sweepNewLabels labels sc su)).filter (fun n => !isRecencyName n)).Perm
      (labels.filter (fun n => !isRecencyName n)) ∧
    ((cleanupNewLabels t now rcE ruE).1).filter (fun n => !isRecencyName n) =
      t.labels.filter (fun n => !isRecencyName n) := by
  constructor
  · have hfil : (sweepNewLabels labels sc su).filter (fun n => !isRecencyName n) =
        labels.filter (fun n => !isRecencyName n) := by
      unfold sweepNewLabels
      rw [filter_applyLabelEdit _ RECENTLY_UPDATED_LABEL _ (fun n => !isRecencyName n)
          (by decide),
        filter_applyLabelEdit _ RECENTLY_CREATED_LABEL _ (fun n => !isRecencyName n)
          (by decide)]
    have h2 := (perm_sortL (sweepNewLabels labels sc su)).filter (fun n => !isRecencyName n)
    rw [hfil] at h2
    exact h2
  · unfold cleanupNewLabels
    simp only []
    split <;> split <;> dsimp only <;>
      first
        | rfl
        | rw [filter_erase_of_pred_false _ RECENTLY_UPDATED_LABEL
              (fun n => !isRecencyName n) (by decide),
            filter_erase_of_pred_false _ RECENTLY_CREATED_LABEL
              (fun n => !isRecencyName n) (by decide)]
        | rw [filter_erase_of_pred_false _ RECENTLY_UPDATED_LABEL
              (fun n => !isRecencyName n) (by decide)]
        | rw [filter_erase_of_pred_false _ RECENTLY_CREATED_LABEL
              (fun n => !isRecencyName n) (by decide)]

/-- Counterexample to C6 as frozen: a task whose creation timestamp does not
parse is not skipped and no failure is raised — `new Date` yields an invalid
date, every comparison against it is false, so the cleanup sweep treats the
item as non-recent and rewrites its labels (here, removing the "recently
created" label it carried). -/
theorem claim6_counterexample :
    cleanupProcessTask
        ⟨"1", "x", [RECENTLY_CREATED_LABEL], Timestamp.malformed "not-a-date",
          Timestamp.missing⟩ 0 true true = some ⟨"1", []⟩ ∧
    isRecentlyCreated
        ⟨"1", "x", [RECENTLY_CREATED_LABEL], Timestamp.malformed "not-a-date",
          Timestamp.missing⟩ 0 = false := by
  decide

/-- Claim C6 amended: when a task's timestamps cannot be parsed, the recency
predicate raises no error and yields `false` for both flags (the item is
treated as non-recent), and the cleanup sweep still processes the item —
if it bears the "recently created" label, a label rewrite is enqueued for
it rather than the item being skipped. -/
theorem claim6_malformed (t : Task) (now : Int)
    (h1 : createdVal t = none) (h2 : updatedVal t = none) :
    isRecentlyCreated t now = false ∧ isRecentlyUpdated t now = false ∧
    (t.labels.contains RECENTLY_CREATED_LABEL = true →
      ∃ w, cleanupProcessTask t now true true = some w) := by
  have hC : isRecentlyCreated t now = false := by simp [isRecentlyCreated, h1, jsGe]
  have hU : isRecentlyUpdated t now = false := by simp [isRecentlyUpdated, h2, jsGe]
  refine ⟨hC, hU, ?_⟩
  intro hc
  unfold cleanupProcessTask cleanupNewLabels
  simp only []
  have hcond : (true && t.labels.contains RECENTLY_CREATED_LABEL &&
      !isRecentlyCreated t now) = true := by
    rw [hc, hC]
    rfl
  rw [if_pos hcond]
  by_cases h3 : (true && (t.labels.erase RECENTLY_CREATED_LABEL).contains
      RECENTLY_UPDATED_LABEL && !isRecentlyUpdated t now) = true
  · rw [if_pos h3]
    exact ⟨_, rfl⟩
  · rw [if_neg h3]
    exact ⟨_, rfl⟩

/-- Witness for C6 amended at a concrete malformed task. -/
theorem claim6_witness :
    isRecentlyCreated
        ⟨"2", "y", [RECENTLY_CREATED_LABEL], Timestamp.malformed "garbage",
          Timestamp.missing⟩ 5 = false ∧
    isRecentlyUpdated
        ⟨"2", "y", [RECENTLY_CREATED_LABEL], Timestamp.malformed "garbage",
          Timestamp.missing⟩ 5 = false ∧
    ((⟨"2", "y", [RECENTLY_CREATED_LABEL], Timestamp.malformed "garbage",
          Timestamp.missing⟩ : Task).labels.contains RECENTLY_CREATED_LABEL = true →
      ∃ w, cleanupProcessTask
        ⟨"2", "y", [RECENTLY_CREATED_LABEL], Timestamp.malformed "garbage",
          Timestamp.missing⟩ 5 true true = some w) :=
  claim6_malformed
    ⟨"2", "y", [RECENTLY_CREATED_LABEL], Timestamp.malformed "garbage", Timestamp.missing⟩
    5 rfl rfl

/-- Claim C10: when neither recency label exists in the store, the cleanup
maintainer returns successfully having created no label and written to no
task ("No recent labels found to manage. Nothing to do."). -/
theorem claim10_sweep_no_labels (s : CleanupStore) (now : Int)
    (h : ∀ l ∈ s.labels, l.name ≠ RECENTLY_CREATED_LABEL ∧ l.name ≠ RECENTLY_UPDATED_LABEL) :
    cleanupMain s now = { creates := [], writes := [] } := by
  have h1 : s.labels.find? (fun l => l.name == RECENTLY_CREATED_LABEL) = none := by
    rw [List.find?_eq_none]
    intro x hx
    simp [(h x hx).1]
  have h2 : s.labels.find? (fun l => l.name == RECENTLY_UPDATED_LABEL) = none := by
    rw [List.find?_eq_none]
    intro x hx
    simp [(h x hx).2]
  unfold cleanupMain
  simp only [h1, h2]
  rfl

/-- Witness for C10: a store holding only an unrelated "work" label. -/
theorem claim10_witness :
    cleanupMain ⟨[⟨1, "work"⟩], [⟨"t1", "c", ["work"], Timestamp.valid 0, Timestamp.missing⟩]⟩
        0 = { creates := [], writes := [] } :=
  claim10_sweep_no_labels
    ⟨[⟨1, "work"⟩], [⟨"t1", "c", ["work"], Timestamp.valid 0, Timestamp.missing⟩]⟩ 0
    (by decide)

/-- The created-label record `ensureLabelsExist` returns is always named
"recently created", whether found or freshly created. -/
theorem ensure_created_name (s : ApiState) :
    (ensureLabelsExist s).1.1.name = RECENTLY_CREATED_LABEL := by
  unfold ensureLabelsExist getLabels addLabel
  simp only []
  cases h : s.labels.find? (fun l => l.name == RECENTLY_CREATED_LABEL) with
  | some l =>
    simp only [h]
    simpa using List.find?_some h
  | none =>
    simp [h]

/-- The updated-label record `ensureLabelsExist` returns is always named
"recently updated", whether found or freshly created. -/
theorem ensure_updated_name (s : ApiState) :
    (ensureLabelsExist s).1.2.name = RECENTLY_UPDATED_LABEL := by
  unfold ensureLabelsExist getLabels addLabel
  simp only []
  cases h : s.labels.find? (fun l => l.name == RECENTLY_UPDATED_LABEL) with
  | some l =>
    simp only [h]
    simpa using List.find?_some h
  | none =>
    simp [h]

/-- On the success path, `addRecentlyCreatedLabel` keeps every label the
task already had (it only ever appends). -/
theorem taskLabels_addRecentlyCreatedLabel (w : World) (l : String) (h : l ∈ w.taskLabels) :
    ∀ w2, addRecentlyCreatedLabel w = Except.ok w2 → l ∈ w2.taskLabels := by
  unfold addRecentlyCreatedLabel
  simp only []
  intro w2
  split
  · intro hx
    cases hx
  · split
    · intro hx
      cases hx
      exact h
    · split
      · intro hx
        cases hx
        exact List.mem_append_left _ h
      · intro hx
        cases hx
        exact h

/-- On the success path, `addRecentlyUpdatedLabel` keeps every label the
task already had (it only ever appends). -/
theorem taskLabels_addRecentlyUpdatedLabel (w : World) (l : String) (h : l ∈ w.taskLabels) :
    ∀ w2, addRecentlyUpdatedLabel w = Except.ok w2 → l ∈ w2.taskLabels := by
  unfold addRecentlyUpdatedLabel
  simp only []
  intro w2
  split
  · intro hx
    cases hx
  · split
    · intro hx
      cases hx
      exact h
    · split
      · intro hx
        cases hx
        exact List.mem_append_left _ h
      · intro hx
        cases hx
        exact h

/-- Claim C3: the reactive updater never removes a label — whatever webhook
event it handles and whatever the store does, every label on the task's
list before handling is still on the list afterwards.  (Removal can thus
only come from the sweep path.) -/
theorem claim3_reactive_preserves (p : WebhookPayload) (w : World) (l : String)
    (h : l ∈ w.taskLabels) : l ∈ reactiveResultLabels p w := by
  unfold reactiveResultLabels
  cases hw : handleWebhook p w with
  | error e => exact h
  | ok w2 =>
    unfold handleWebhook at hw
    by_cases h1 : (p.event_name == "item:added") = true
    · rw [if_pos h1] at hw
      exact taskLabels_addRecentlyCreatedLabel w l h w2 hw
    · rw [if_neg h1] at hw
      by_cases h2 : (p.event_name == "item:updated") = true
      · rw [if_pos h2] at hw
        by_cases h3 : jsIntentQualifies p.updateIntent = true
        · rw [if_pos h3] at hw
          exact taskLabels_addRecentlyUpdatedLabel w l h w2 hw
        · rw [if_neg h3] at hw
          cases hw
          exact h
      · rw [if_neg h2] at hw
        cases hw
        exact h

/-- Witness for C3: an unrelated "work" label survives an `item:added`
event. -/
theorem claim3_witness :
    "work" ∈ reactiveResultLabels ⟨"item:added", "1", none⟩
      ⟨⟨[], 0, 0⟩, ["work"], true, false⟩ :=
  claim3_reactive_preserves ⟨"item:added", "1", none⟩ ⟨⟨[], 0, 0⟩, ["work"], true, false⟩
    "work" (by decide)

/-- Counterexample to C7 as frozen: starting from an empty label store, two
consecutive `ensureLabelsExist` calls in the same run perform two fetches of
the label collection — there is no cache, so the second call does not skip
its fetch. -/
theorem claim7_counterexample :
    ((ensureLabelsExist (ensureLabelsExist ⟨[], 0, 0⟩).2).2).fetches = 2 ∧
    ¬ ((ensureLabelsExist (ensureLabelsExist ⟨[], 0, 0⟩).2).2).fetches = 1 := by
  decide

/-- Claim C7 amended: every `ensureLabelsExist` call fetches the label
collection exactly once and leaves both required labels present, creating
the missing ones; nothing is cached, but a second call in the same run
resolves the same two label records, because the labels the first call
created now exist in the store. -/
theorem claim7_resolve (s : ApiState) :
    ((ensureLabelsExist s).2).fetches = s.fetches + 1 ∧
    (∃ l ∈ ((ensureLabelsExist s).2).labels, l.name = RECENTLY_CREATED_LABEL) ∧
    (∃ l ∈ ((ensureLabelsExist s).2).labels, l.name = RECENTLY_UPDATED_LABEL) ∧
    (ensureLabelsExist ((ensureLabelsExist s).2)).1 = (ensureLabelsExist s).1 := by
  cases h1 : s.labels.find? (fun l => l.name == RECENTLY_CREATED_LABEL) with
  | some a =>
    cases h2 : s.labels.find? (fun l => l.name == RECENTLY_UPDATED_LABEL) with
    | some b =>
      have hs : ensureLabelsExist s = ((a, b), { s with fetches := s.fetches + 1 }) := by
        simp [ensureLabelsExist, getLabels, addLabel, h1, h2]
      have hs2 : ensureLabelsExist { s with fetches := s.fetches + 1 } =
          ((a, b), { s with fetches := s.fetches + 1 + 1 }) := by
        simp [ensureLabelsExist, getLabels, addLabel, h1, h2]
      refine ⟨by rw [hs], ?_, ?_, ?_⟩
      · exact ⟨a, by simp [hs, List.mem_of_find?_eq_some h1],
          by simpa using List.find?_some h1⟩
      · exact ⟨b, by simp [hs, List.mem_of_find?_eq_some h2],
          by simpa using List.find?_some h2⟩
      · rw [hs, hs2]
    | none =>
      have hs : ensureLabelsExist s =
          ((a, ⟨s.nextId, RECENTLY_UPDATED_LABEL⟩),
            { s with
                labels := s.labels ++ [⟨s.nextId, RECENTLY_UPDATED_LABEL⟩],
                nextId := s.nextId + 1,
                fetches := s.fetches + 1 }) := by
        simp [ensureLabelsExist, getLabels, addLabel, h1, h2]
      have hf1 : (s.labels ++ [(⟨s.nextId, RECENTLY_UPDATED_LABEL⟩ : LabelRec)]).find?
          (fun l => l.name == RECENTLY_CREATED_LABEL) = some a := by
        simp [List.find?_append, h1]
      have hf2 : (s.labels ++ [(⟨s.nextId, RECENTLY_UPDATED_LABEL⟩ : LabelRec)]).find?
          (fun l => l.name == RECENTLY_UPDATED_LABEL) =
          some ⟨s.nextId, RECENTLY_UPDATED_LABEL⟩ := by
        simp [List.find?_append, h2]
      refine ⟨by rw [hs], ?_, ?_, ?_⟩
      · exact ⟨a, by simp [hs, List.mem_of_find?_eq_some h1],
          by simpa using List.find?_some h1⟩
      · exact ⟨⟨s.nextId, RECENTLY_UPDATED_LABEL⟩, by simp [hs], rfl⟩
      · rw [hs]
        simp [ensureLabelsExist, getLabels, addLabel, hf1, hf2]
  | none =>
    cases h2 : s.labels.find? (fun l => l.name == RECENTLY_UPDATED_LABEL) with
    | some b =>
      have hs : ensureLabelsExist s =
          ((⟨s.nextId, RECENTLY_CREATED_LABEL⟩, b),
            { s with
                labels := s.labels ++ [⟨s.nextId, RECENTLY_CREATED_LABEL⟩],
                nextId := s.nextId + 1,
                fetches := s.fetches + 1 }) := by
        simp [ensureLabelsExist, getLabels, addLabel, h1, h2]
      have hf1 : (s.labels ++ [(⟨s.nextId, RECENTLY_CREATED_LABEL⟩ : LabelRec)]).find?
          (fun l => l.name == RECENTLY_CREATED_LABEL) =
          some ⟨s.nextId, RECENTLY_CREATED_LABEL⟩ := by
        simp [List.find?_append, h1]
      have hf2 : (s.labels ++ [(⟨s.nextId, RECENTLY_CREATED_LABEL⟩ : LabelRec)]).find?
          (fun l => l.name == RECENTLY_UPDATED_LABEL) = some b := by
        simp [List.find?_append, h2]
      refine ⟨by rw [hs], ?_, ?_, ?_⟩
      · exact ⟨⟨s.nextId, RECENTLY_CREATED_LABEL⟩, by simp [hs], rfl⟩
      · exact ⟨b, by simp [hs, List.mem_of_find?_eq_some h2],
          by simpa using List.find?_some h2⟩
      · rw [hs]
        simp [ensureLabelsExist, getLabels, addLabel, hf1, hf2]
    | none =>
      have hs : ensureLabelsExist s =
          ((⟨s.nextId, RECENTLY_CREATED_LABEL⟩, ⟨s.nextId + 1, RECENTLY_UPDATED_LABEL⟩),
            { s with
                labels := (s.labels ++ [⟨s.nextId, RECENTLY_CREATED_LABEL⟩]) ++
                  [⟨s.nextId + 1, RECENTLY_UPDATED_LABEL⟩],
                nextId := s.nextId + 1 + 1,
                fetches := s.fetches + 1 }) := by
        simp [ensureLabelsExist, getLabels, addLabel, h1, h2]
      have hf1 : ((s.labels ++ [(⟨s.nextId, RECENTLY_CREATED_LABEL⟩ : LabelRec)]) ++
          [(⟨s.nextId + 1, RECENTLY_UPDATED_LABEL⟩ : LabelRec)]).find?
          (fun l => l.name == RECENTLY_CREATED_LABEL) =
          some ⟨s.nextId, RECENTLY_CREATED_LABEL⟩ := by
        simp [List.find?_append, h1]
      have hf2 : ((s.labels ++ [(⟨s.nextId, RECENTLY_CREATED_LABEL⟩ : LabelRec)]) ++
          [(⟨s.nextId + 1, RECENTLY_UPDATED_LABEL⟩ : LabelRec)]).find?
          (fun l => l.name == RECENTLY_UPDATED_LABEL) =
          some ⟨s.nextId + 1, RECENTLY_UPDATED_LABEL⟩ := by
        simp [List.find?_append, h2]
        decide
      refine ⟨by rw [hs], ?_, ?_, ?_⟩
      · exact ⟨⟨s.nextId, RECENTLY_CREATED_LABEL⟩, by simp [hs], rfl⟩
      · exact ⟨⟨s.nextId + 1, RECENTLY_UPDATED_LABEL⟩, by simp [hs], rfl⟩
      · rw [hs]
        simp only [ensureLabelsExist, getLabels, addLabel]
        rw [hf1, hf2]

/-- Counterexample to C8 as frozen: an `item:updated` event whose
update-intent field is present but empty is neither absent nor the
sentinel, yet the handler adds the "recently updated" label (JavaScript
`!updateIntent` is also true on the empty string). -/
theorem claim8_counterexample :
    reactiveResultLabels ⟨"item:updated", "1", some ""⟩ ⟨⟨[], 0, 0⟩, [], true, false⟩ =
      [RECENTLY_UPDATED_LABEL] ∧
    [RECENTLY_UPDATED_LABEL] ≠ ([] : List String) := by
  decide

/-- Claim C8 amended: on an `item:updated` event the reactive updater adds
the "recently updated" label (once) exactly when the update-intent field is
absent, empty, or equal to the sentinel "item_updated"; for every other
intent value the task's labels are left unchanged. -/
theorem claim8_update_intent (w : World) (tid : String) (i : Option String)
    (hInit : w.apiInit = true) (hOk : w.storeFails = false) :
    (jsIntentQualifies i = true ↔ i = none ∨ i = some "" ∨ i = some "item_updated") ∧
    reactiveResultLabels ⟨"item:updated", tid, i⟩ w =
      (if jsIntentQualifies i then
        (if w.taskLabels.contains RECENTLY_UPDATED_LABEL then w.taskLabels
          else w.taskLabels ++ [RECENTLY_UPDATED_LABEL])
        else w.taskLabels) := by
  constructor
  · cases i with
    | none => simp [jsIntentQualifies]
    | some s => simp [jsIntentQualifies]
  · unfold reactiveResultLabels handleWebhook
    simp only []
    have he1 : (("item:updated" : String) == "item:added") = false := by decide
    have he2 : (("item:updated" : String) == "item:updated") = true := by decide
    rw [he1, if_neg Bool.false_ne_true, he2, if_pos rfl]
    by_cases hq : jsIntentQualifies i = true
    · rw [if_pos hq, if_pos hq]
      unfold addRecentlyUpdatedLabel
      simp only []
      rw [hInit]
      simp only [Bool.not_true]
      rw [if_neg Bool.false_ne_true, hOk, if_neg Bool.false_ne_true]
      rw [ensure_updated_name]
      by_cases hc : w.taskLabels.contains RECENTLY_UPDATED_LABEL = true
      · rw [if_pos hc, hc]
        simp only [Bool.not_true]
        rw [if_neg Bool.false_ne_true]
      · have hc2 : w.taskLabels.contains RECENTLY_UPDATED_LABEL = false :=
          Bool.eq_false_iff.mpr hc
        rw [if_neg hc, hc2]
        simp
    · rw [if_neg hq, if_neg hq]

/-- Witness for C8 amended: a non-qualifying intent leaves labels alone. -/
theorem claim8_witness :
    (jsIntentQualifies (some "banana") = true ↔ some "banana" = none ∨
      some "banana" = some "" ∨ some "banana" = some "item_updated") ∧
    reactiveResultLabels ⟨"item:updated", "1", some "banana"⟩
        ⟨⟨[], 0, 0⟩, ["work"], true, false⟩ =
      (if jsIntentQualifies (some "banana") then
        (if (["work"] : List String).contains RECENTLY_UPDATED_LABEL then ["work"]
          else ["work"] ++ [RECENTLY_UPDATED_LABEL])
        else ["work"]) :=
  claim8_update_intent ⟨⟨[], 0, 0⟩, ["work"], true, false⟩ "1" (some "banana") rfl rfl

/-- With an initialized API client, handling any webhook payload returns
normally: every store error on the add path is caught and swallowed. -/
theorem handleWebhook_isOk (p : WebhookPayload) (w : World) (h : w.apiInit = true) :
    ∃ w2, handleWebhook p w = Except.ok w2 := by
  have hadd1 : ∃ w2, addRecentlyCreatedLabel w = Except.ok w2 := by
    unfold addRecentlyCreatedLabel
    rw [h]
    simp only [Bool.not_true]
    rw [if_neg Bool.false_ne_true]
    split
    · exact ⟨_, rfl⟩
    · split
      · exact ⟨_, rfl⟩
      · exact ⟨_, rfl⟩
  have hadd2 : ∃ w2, addRecentlyUpdatedLabel w = Except.ok w2 := by
    unfold addRecentlyUpdatedLabel
    rw [h]
    simp only [Bool.not_true]
    rw [if_neg Bool.false_ne_true]
    split
    · exact ⟨_, rfl⟩
    · split
      · exact ⟨_, rfl⟩
      · exact ⟨_, rfl⟩
  unfold handleWebhook
  split
  · exact hadd1
  · split
    · split
      · exact hadd2
      · exact ⟨w, rfl⟩
    · exact ⟨w, rfl⟩

/-- Claim C9: once a POST to the webhook endpoint carries a signature that
verifies and a body that parses, the handler answers 200 — whatever the
downstream label operations do (the `storeFails` oracle is unconstrained). -/
theorem claim9_handler_acknowledges (req : HttpRequest) (w : World)
    (hp : req.path = "/webhook") (hm : req.method = "POST")
    (hs : req.hasSignature = true) (hv : req.signatureValid = true)
    (hparse : req.parses = true) (hInit : w.apiInit = true) :
    handler req w = 200 := by
  obtain ⟨w2, hw⟩ := handleWebhook_isOk req.payload w hInit
  unfold handler
  rw [hp, hm]
  have h1 : (("/webhook" : String) == "/health") = false := by decide
  have h2 : (("/webhook" : String) == "/webhook" && ("POST" : String) == "POST") = true := by
    decide
  rw [h1, if_neg Bool.false_ne_true, h2, if_pos rfl]
  rw [hs, hv, hparse]
  simp only [Bool.not_true]
  rw [if_neg Bool.false_ne_true, if_neg Bool.false_ne_true, if_neg Bool.false_ne_true, hw]

/-- Witness for C9: a verified, parsed `item:added` payload against a world
whose store calls all fail still gets a 200. -/
theorem claim9_witness :
    handler ⟨"/webhook", "POST", true, true, true, ⟨"item:added", "1", none⟩⟩
      ⟨⟨[], 0, 0⟩, [], true, true⟩ = 200 :=
  claim9_handler_acknowledges ⟨"/webhook", "POST", true, true, true, ⟨"item:added", "1", none⟩⟩
    ⟨⟨[], 0, 0⟩, [], true, true⟩ rfl rfl rfl rfl rfl rfl

end TodoistRecent
